import Mathlib

/-!
Verification of the SafeMPC mpc-service repository against its specification.

The Go source is shallowly embedded: pure control flow and arithmetic are
translated directly; external library primitives (HMAC-SHA512, elliptic-curve
point encoding, ASN.1/COSE/JSON parsing, standard-library signature verifiers)
are abstracted as function parameters, and the elliptic-curve group itself is
modelled as an arbitrary additive commutative group with a distinguished base
point, matching the way the Go code only ever uses group addition and scalar
multiplication by the base point.
-/

namespace MpcService

/-- Big-endian byte list to natural number (`big.Int.SetBytes`). -/
def beToNat (bs : List ℕ) : ℕ :=
  bs.foldl (fun a b => a * 256 + b) 0

/-- 4-byte big-endian encoding of a 32-bit index (`binary.BigEndian.PutUint32`). -/
def be32 (i : ℕ) : List ℕ :=
  [i / 2 ^ 24 % 256, i / 2 ^ 16 % 256, i / 2 ^ 8 % 256, i % 256]

/-- Value of a single hexadecimal digit, `none` for non-hex characters. -/
def hexDigitVal (c : Char) : Option ℕ :=
  if '0' ≤ c ∧ c ≤ '9' then some (c.toNat - '0'.toNat)
  else if 'a' ≤ c ∧ c ≤ 'f' then some (c.toNat - 'a'.toNat + 10)
  else if 'A' ≤ c ∧ c ≤ 'F' then some (c.toNat - 'A'.toNat + 10)
  else none

/-- Decode a list of hex characters two at a time (`hex.DecodeString` core). -/
def hexDecodeChars : List Char → Option (List ℕ)
  | [] => some []
  | [_] => none
  | c1 :: c2 :: rest =>
    match hexDigitVal c1, hexDigitVal c2, hexDecodeChars rest with
    | some h, some l, some bs => some ((h * 16 + l) :: bs)
    | _, _, _ => none

/-- Go's `hex.DecodeString`: fails on odd length or non-hex characters. -/
def hexDecode (s : String) : Option (List ℕ) :=
  hexDecodeChars s.data

/-- Go's `strings.TrimRight(s, "=")`: drop all trailing `=` characters. -/
def trimRightEq (s : String) : String :=
  String.mk ((s.data.reverse.dropWhile (fun c => c = '=')).reverse)

/-- Splitting on a single-character separator (structural implementation
of Go's `strings.Split(s, sep)` for a one-character `sep`). -/
def splitChars (sep : Char) : List Char → List Char → List String
  | [], acc => [String.mk acc.reverse]
  | c :: rest, acc =>
    if c = sep then String.mk acc.reverse :: splitChars sep rest []
    else splitChars sep rest (c :: acc)

/-- Go's `strings.Split(path, "/")`. -/
def splitSlash (s : String) : List String :=
  splitChars (Char.ofNat 47) s.data []

/-- ASCII lower-casing (Go's `strings.ToLower` on hex strings). -/
def asciiLower (s : String) : String :=
  String.mk (s.data.map Char.toLower)

/-- Order of the secp256k1 group (`btcec.S256().N`). -/
def secpN : ℕ :=
  0xFFFFFFFFFFFFFFFFFFFFFFFFFFFFFFFEBAAEDCE6AF48A03BBFD25E8CD0364141

/-- Order of the Ed25519 base-point subgroup (`edwards.Edwards().N`). -/
def edN : ℕ := 2 ^ 252 + 27742317777372353535851937790883648493

/-! ## BIP32-style derivation (src/unnamed/part_024, package protocol) -/

/-- Error kinds surfaced by the derivation code in part_024. -/
inductive DeriveError where
  | hardenedNotSupported
  | invalidChainCode
  | invalidIL
  | pathParse
  | emptyKs
  | invariantFailed
  deriving DecidableEq, Repr

/-- External primitives used by the derivation code: HMAC-SHA512 (from
`crypto/hmac` + `crypto/sha512`, as `hmac key data`, returning 64 bytes) and
the compressed point encoding used to feed the parent public key into the
HMAC (`btcec` compressed encoding resp. `edwards.PublicKey.Serialize`). -/
structure DerivePrims (P : Type) where
  hmac : List ℕ → List ℕ → List ℕ
  ser : P → List ℕ

/-- Go's `strconv.ParseUint(s, 10, 32)`: decimal digits only, no sign,
value below `2^32`. -/
def parseUint32 (s : String) : Option ℕ :=
  if s.data = [] then none
  else if s.data.all Char.isDigit then
    let v := s.data.foldl (fun a c => a * 10 + (c.toNat - 48)) 0
    if v < 2 ^ 32 then some v else none
  else none

/-- Hardened-suffix handling in `parseDerivationPath`: a trailing
apostrophe, `h`, or `H` marks the component hardened and is stripped. -/
def stripHardened (part : String) : Bool × String :=
  if part.data.getLast? = some (Char.ofNat 39) ∨ part.data.getLast? = some 'h' ∨
      part.data.getLast? = some 'H' then
    (true, String.mk part.data.dropLast)
  else (false, part)

/-- The component loop of `parseDerivationPath`: empty components are
skipped, hardened components get bit 31 set. -/
def parseComponents : List String → Except DeriveError (List ℕ)
  | [] => .ok []
  | p :: rest =>
    if p = "" then parseComponents rest
    else
      let step := stripHardened p
      match parseUint32 step.2 with
      | none => .error .pathParse
      | some v =>
        let idx := if step.1 then v ||| 0x80000000 else v
        match parseComponents rest with
        | .error e => .error e
        | .ok is => .ok (idx :: is)

/-- `parseDerivationPath` from part_024: split on `/`, drop a leading `m`,
parse the remaining components. -/
def parseDerivationPath (path : String) : Except DeriveError (List ℕ) :=
  let parts := splitSlash path
  if parts = [] then .error .pathParse
  else
    let parts := if parts.head? = some "m" then parts.tail else parts
    parseComponents parts

/-- `computeIL` from part_024 (secp256k1): hardened indices and bad chain
codes are rejected, the HMAC output is split into IL/IR, and IL is rejected
when it is zero or at least the curve order. -/
def computeIL {P : Type} (prims : DerivePrims P) (pub : P) (chainCode : List ℕ)
    (index : ℕ) : Except DeriveError (ℕ × List ℕ) :=
  if 0x80000000 ≤ index then .error .hardenedNotSupported
  else if chainCode.length ≠ 32 then .error .invalidChainCode
  else
    let I := prims.hmac chainCode (prims.ser pub ++ be32 index)
    let il := beToNat (I.take 32)
    if secpN ≤ il ∨ il = 0 then .error .invalidIL
    else .ok (il, I.drop 32)

/-- `computeIL_Ed25519` from part_024: same structure, but the upper-bound
check against the group order is commented out in the source; only `il = 0`
is rejected. -/
def computeIL_Ed25519 (hmac : List ℕ → List ℕ → List ℕ) (pubKeyBytes : List ℕ)
    (chainCode : List ℕ) (index : ℕ) : Except DeriveError (ℕ × List ℕ) :=
  if 0x80000000 ≤ index then .error .hardenedNotSupported
  else if chainCode.length ≠ 32 then .error .invalidChainCode
  else
    let I := hmac chainCode (pubKeyBytes ++ be32 index)
    let il := beToNat (I.take 32)
    if il = 0 then .error .invalidIL
    else .ok (il, I.drop 32)

/-- `keygen.LocalPartySaveData` as used by `DeriveLocalPartySaveData`:
party index list `Ks`, own `ShareID`, local scalar share `Xi`, public
shares `BigXj`, group public key `ECDSAPub`.  The Paillier/zk auxiliary
material (`LocalPreParams`, `PaillierPKs`, `NTildej`, `H1j`, `H2j`) is
copied unchanged by the derivation and is omitted here; `nil` entries of
`BigXj` (absent in well-formed bundles) are not modelled. -/
structure LocalPartySaveData (P : Type) where
  Ks : List ℕ
  ShareID : ℕ
  Xi : ℕ
  BigXj : List P
  ECDSAPub : P
  deriving DecidableEq

/-- `eddsaKeygen.LocalPartySaveData` as used by
`DeriveEdDSALocalPartySaveData`. -/
structure EdLocalPartySaveData (P : Type) where
  Ks : List ℕ
  ShareID : ℕ
  Xi : ℕ
  BigXj : List P
  EDDSAPub : P
  deriving DecidableEq

/-- The per-index loop of `DeriveLocalPartySaveData`: compute IL, check
`Ks` non-empty, add IL to the local share modulo the order, add `IL·G` to
the running public key and to every public share, advance the chain code. -/
def deriveStepsECDSA {P : Type} [AddCommGroup P] (prims : DerivePrims P) (G : P)
    (Ks : List ℕ) :
    List ℕ → ℕ → P → List P → List ℕ → Except DeriveError (ℕ × P × List P × List ℕ)
  | [], xi, pub, bigXj, cc => .ok (xi, pub, bigXj, cc)
  | index :: rest, xi, pub, bigXj, cc =>
    match computeIL prims pub cc index with
    | .error e => .error e
    | .ok (il, nextCC) =>
      if Ks = [] then .error .emptyKs
      else
        deriveStepsECDSA prims G Ks rest ((xi + il) % secpN) (pub + il • G)
          (bigXj.map (fun pt => pt + il • G)) nextCC

/-- `DeriveLocalPartySaveData` from part_024: empty or index-free paths
return the parent bundle, otherwise the per-index loop runs and the result
passes the local post-derivation invariant check `Xi·G = BigXj[myIndex]`
(performed only when `ShareID` occurs in `Ks`). -/
def DeriveLocalPartySaveData {P : Type} [AddCommGroup P] [DecidableEq P]
    (prims : DerivePrims P) (G : P) (parent : LocalPartySaveData P)
    (parentChainCode : List ℕ) (path : String) :
    Except DeriveError (LocalPartySaveData P) :=
  if path = "" then .ok parent
  else
    match parseDerivationPath path with
    | .error e => .error e
    | .ok indices =>
      if indices = [] then .ok parent
      else
        match deriveStepsECDSA prims G parent.Ks indices parent.Xi parent.ECDSAPub
            parent.BigXj parentChainCode with
        | .error e => .error e
        | .ok (xi, pub, bigXj, _) =>
          let child : LocalPartySaveData P :=
            { Ks := parent.Ks, ShareID := parent.ShareID, Xi := xi,
              BigXj := bigXj, ECDSAPub := pub }
          match child.Ks.findIdx? (fun k => k = child.ShareID) with
          | some my =>
            match child.BigXj[my]? with
            | some pt => if xi • G = pt then .ok child else .error .invariantFailed
            | none => .ok child
          | none => .ok child

/-- The per-index loop of `DeriveEdDSALocalPartySaveData`: same update as
the ECDSA loop but modulo the Ed25519 order, with no `Ks` check. -/
def deriveStepsEdDSA {P : Type} [AddCommGroup P] (prims : DerivePrims P) (G : P) :
    List ℕ → ℕ → P → List P → List ℕ → Except DeriveError (ℕ × P × List P × List ℕ)
  | [], xi, pub, bigXj, cc => .ok (xi, pub, bigXj, cc)
  | index :: rest, xi, pub, bigXj, cc =>
    match computeIL_Ed25519 prims.hmac (prims.ser pub) cc index with
    | .error e => .error e
    | .ok (il, nextCC) =>
      deriveStepsEdDSA prims G rest ((xi + il) % edN) (pub + il • G)
        (bigXj.map (fun pt => pt + il • G)) nextCC

/-- `DeriveEdDSALocalPartySaveData` from part_024: empty or index-free
paths return the parent bundle, otherwise the loop output is returned
directly — the EdDSA derivation performs no post-derivation invariant
check. -/
def DeriveEdDSALocalPartySaveData {P : Type} [AddCommGroup P]
    (prims : DerivePrims P) (G : P) (parent : EdLocalPartySaveData P)
    (parentChainCode : List ℕ) (path : String) :
    Except DeriveError (EdLocalPartySaveData P) :=
  if path = "" then .ok parent
  else
    match parseDerivationPath path with
    | .error e => .error e
    | .ok indices =>
      if indices = [] then .ok parent
      else
        match deriveStepsEdDSA prims G indices parent.Xi parent.EDDSAPub
            parent.BigXj parentChainCode with
        | .error e => .error e
        | .ok (xi, pub, bigXj, _) =>
          .ok { Ks := parent.Ks, ShareID := parent.ShareID, Xi := xi,
                BigXj := bigXj, EDDSAPub := pub }

/-! ## Authorisation gate (src/internal/mpc/grpc/client.go, checkGuardianPolicy) -/

/-- `pb.StartSignRequest_AuthToken` as consumed by `checkGuardianPolicy`:
a public key in hex and a raw signature. -/
structure AuthToken where
  publicKey : String
  signature : List ℕ
  deriving DecidableEq

/-- `storage.SigningPolicy` (only the field the gate reads). -/
structure SigningPolicy where
  minSignatures : ℕ
  deriving DecidableEq

/-- The slice of `pb.StartSignRequest` read by `checkGuardianPolicy`. -/
structure StartSignRequest where
  keyId : String
  message : List ℕ
  messageHex : String
  authTokens : List AuthToken
  deriving DecidableEq

/-- Error kinds surfaced by `checkGuardianPolicy`. -/
inductive GuardianError where
  | storeError
  | badMessageHex
  | insufficientSignatures
  deriving DecidableEq, Repr

/-- Standard-library signature verifiers used by the gate
(`ed25519.Verify` resp. go-ethereum secp256k1 verification, each wrapped
with its hex-decoding and length checks as in `verifyEd25519` /
`verifySecp256k1`): arguments are lower-cased public key hex, message
bytes and signature bytes. -/
structure GuardianPrims where
  verifyEd25519 : String → List ℕ → List ℕ → Bool
  verifySecp256k1 : String → List ℕ → List ℕ → Bool

/-- The length dispatch in `checkGuardianPolicy` step C: 64 hex characters
(32 bytes) mean Ed25519, anything else is tried as secp256k1. -/
def dispatchVerify (prims : GuardianPrims) (pubKeyHex : String) (msg sig : List ℕ) :
    Bool :=
  if pubKeyHex.data.length = 64 then prims.verifyEd25519 pubKeyHex msg sig
  else prims.verifySecp256k1 pubKeyHex msg sig

/-- The token loop of `checkGuardianPolicy`: skip keys outside the
whitelist, skip keys already counted, count a key on its first valid
signature. -/
def guardianLoop (prims : GuardianPrims) (allowed : List String) (msg : List ℕ) :
    List AuthToken → List String → ℕ → ℕ
  | [], _, count => count
  | t :: rest, visited, count =>
    let pk := asciiLower t.publicKey
    if pk ∉ allowed then guardianLoop prims allowed msg rest visited count
    else if pk ∈ visited then guardianLoop prims allowed msg rest visited count
    else if dispatchVerify prims pk msg t.signature then
      guardianLoop prims allowed msg rest (pk :: visited) (count + 1)
    else guardianLoop prims allowed msg rest visited count

/-- Message resolution in `checkGuardianPolicy`: use `req.Message`, or
decode `req.MessageHex` when the former is empty and the latter is not. -/
def guardianMessage (req : StartSignRequest) : Option (List ℕ) :=
  if req.message = [] ∧ req.messageHex ≠ "" then hexDecode req.messageHex
  else some req.message

/-- `checkGuardianPolicy` from client.go.  `policy` is the result of
`GetSigningPolicy` after the error fallback in the source (a load error is
collapsed to `nil`, i.e. `none`); `allowedKeys` is the result of
`ListUserAuthKeys` (`none` models a store error, which is returned as-is),
as the list of `PublicKeyHex` fields. -/
def checkGuardianPolicy (prims : GuardianPrims) (policy : Option SigningPolicy)
    (allowedKeys : Option (List String)) (req : StartSignRequest) :
    Except GuardianError Unit :=
  let minSignatures := match policy with
    | some p => p.minSignatures
    | none => 1
  match allowedKeys with
  | none => .error .storeError
  | some keys =>
    let allowedList := keys.map asciiLower
    match guardianMessage req with
    | none => .error .badMessageHex
    | some msg =>
      let validSigCount := guardianLoop prims allowedList msg req.authTokens [] 0
      if validSigCount < minSignatures then .error .insufficientSignatures
      else .ok ()

/-- Specification-side count: the set of distinct allowed (lower-cased)
public keys that appear on some token whose signature verifies. -/
def validKeyset (prims : GuardianPrims) (allowedList : List String) (msg : List ℕ)
    (tokens : List AuthToken) : Finset String :=
  ((tokens.filter (fun t =>
      asciiLower t.publicKey ∈ allowedList ∧
      dispatchVerify prims (asciiLower t.publicKey) msg t.signature)).map
    (fun t => asciiLower t.publicKey)).toFinset

/-! ## WebAuthn assertion verification (src/internal/auth/passkey.go) -/

/-- `protocol.CollectedClientData` (the fields the code reads). -/
structure CollectedClientData where
  type : String
  challenge : String
  deriving DecidableEq

/-- `protocol.AuthenticatorData` (the only flag the code reads). -/
structure AuthenticatorData where
  userPresent : Bool
  deriving DecidableEq

/-- External primitives of `VerifyPasskeySignature`:
`webauthncose.ParsePublicKey` (producing an opaque key of type `K`),
`json.Unmarshal` into `CollectedClientData`,
`protocol.AuthenticatorData.Unmarshal`, SHA-256, and
`webauthncose.VerifySignature`. -/
structure PasskeyPrims (K : Type) where
  parsePublicKey : List ℕ → Except String K
  parseClientData : List ℕ → Except String CollectedClientData
  parseAuthData : List ℕ → Except String AuthenticatorData
  sha256 : List ℕ → List ℕ
  verifySignature : K → List ℕ → List ℕ → Except String Bool

/-- Error kinds surfaced by `VerifyPasskeySignature`. -/
inductive PasskeyError where
  | badPublicKeyHex
  | badPublicKey
  | badClientData
  | challengeMismatch
  | badAuthData
  | userNotPresent
  | verifyError
  | invalidSignature
  deriving DecidableEq, Repr

/-- `VerifyPasskeySignature` from passkey.go: hex-decode and parse the
COSE public key, parse the client data, compare the challenge (exactly or
after stripping `=` padding on both sides), parse the authenticator data,
require the User Present flag, and verify the signature over
`authData ‖ SHA256(clientDataJSON)`.  The source never inspects the
client-data `type` field. -/
def VerifyPasskeySignature {K : Type} (prims : PasskeyPrims K)
    (publicKeyHex : String) (signature authData clientDataJSON : List ℕ)
    (expectedChallenge : String) : Except PasskeyError Unit :=
  match hexDecode publicKeyHex with
  | none => .error .badPublicKeyHex
  | some pkBytes =>
    match prims.parsePublicKey pkBytes with
    | .error _ => .error .badPublicKey
    | .ok pubKey =>
      match prims.parseClientData clientDataJSON with
      | .error _ => .error .badClientData
      | .ok clientData =>
        if clientData.challenge ≠ expectedChallenge ∧
            trimRightEq clientData.challenge ≠ trimRightEq expectedChallenge then
          .error .challengeMismatch
        else
          match prims.parseAuthData authData with
          | .error _ => .error .badAuthData
          | .ok ad =>
            if ¬ ad.userPresent then .error .userNotPresent
            else
              let signedData := authData ++ prims.sha256 clientDataJSON
              match prims.verifySignature pubKey signedData signature with
              | .error _ => .error .verifyError
              | .ok false => .error .invalidSignature
              | .ok true => .ok ()

/-! ## Signing service (src/unnamed/part_018, package signing) -/

/-- `detectSignatureFormat`: 70 bytes is DER ECDSA, 64 bytes is Schnorr,
anything else is unknown. -/
inductive SignatureFormat where
  | ecdsaDer
  | schnorr
  | unknown
  deriving DecidableEq, Repr

/-- Length dispatch of `detectSignatureFormat`. -/
def detectSignatureFormat (sig : List ℕ) : SignatureFormat :=
  if sig.length = 70 then .ecdsaDer
  else if sig.length = 64 then .schnorr
  else .unknown

/-- External verifiers used by `verifySignatureStandard`:
`verifyECDSASignature` (ASN.1 parse + `ecdsa.Verify`, collapsed) and the
bare `ed25519.Verify`. -/
structure VerifyPrims where
  verifyECDSASignature : List ℕ → List ℕ → List ℕ → Except String Bool
  ed25519Verify : List ℕ → List ℕ → List ℕ → Bool

/-- `verifyEd25519Signature` from part_018: length checks, then
`ed25519.Verify`. -/
def verifyEd25519Signature (prims : VerifyPrims) (sig msg pub : List ℕ) :
    Except String Bool :=
  if sig.length ≠ 64 then .error "Ed25519 signature must be 64 bytes"
  else if pub.length ≠ 32 then .error "Ed25519 public key must be 32 bytes"
  else .ok (prims.ed25519Verify pub msg sig)

/-- `verifySchnorrSignature` from part_018: the secp256k1 Schnorr check is
a TODO stub in the source and always returns `(true, nil)`. -/
def verifySchnorrSignature (_sig _msg _pub : List ℕ) : Except String Bool :=
  .ok true

/-- `verifySignatureStandard` from part_018. -/
def verifySignatureStandard (prims : VerifyPrims) (sig msg pub : List ℕ) :
    Except String Bool :=
  match detectSignatureFormat sig with
  | .ecdsaDer => prims.verifyECDSASignature sig msg pub
  | .schnorr =>
    if pub.length = 32 then verifyEd25519Signature prims sig msg pub
    else if pub.length = 33 ∨ pub.length = 65 then verifySchnorrSignature sig msg pub
    else .error "unsupported public key format for Schnorr signature"
  | .unknown => .error "unsupported signature format"

/-- The `valid` flag after step 8 of `ThresholdSign`: a verification error
and a `false` verdict are both overridden to `true` (the source only logs
a warning and continues). -/
def thresholdSignValidFlag (verdict : Except String Bool) : Bool :=
  match verdict with
  | .error _ => true
  | .ok v => if v then v else true

/-- The slice of `SignResponse` relevant here. -/
structure SignResponse where
  signature : String
  deriving DecidableEq

/-- Steps 8–9 of `ThresholdSign`, entered once a completed session has
produced `signatureHex`: decode the public key and signature hex (errors
there are returned), run `verifySignatureStandard`, override any failure
to `valid = true`, and build the response carrying `signatureHex`.  The
`valid` flag is not consulted when building the response. -/
def thresholdSignFinalize (prims : VerifyPrims) (publicKeyHex signatureHex : String)
    (message : List ℕ) : Except String SignResponse :=
  match hexDecode publicKeyHex with
  | none => .error "failed to decode public key hex"
  | some pubKeyBytes =>
    match hexDecode signatureHex with
    | none => .error "failed to decode signature hex"
    | some sigBytes =>
      let verdict := verifySignatureStandard prims sigBytes message pubKeyBytes
      let _valid := thresholdSignValidFlag verdict
      .ok { signature := signatureHex }

/-- `node.Node` (the fields participant selection reads). -/
structure NodeInfo where
  nodeID : String
  purpose : String
  deriving DecidableEq

/-- Participant selection of `ThresholdSign` (part_018, step 4):
2-of-2 uses the mobile node plus the fixed server signer, 2-of-3 uses two
fixed server proxies, anything else filters discovered nodes on
`purpose ∈ {"signing", ""}`, rejects when fewer than `threshold` remain,
and takes `min(max(totalNodes, threshold), available)` of them. -/
def selectParticipants (threshold totalNodes : ℕ) (mobileNodeID : String)
    (discovered : Except String (List NodeInfo)) : Except String (List String) :=
  if threshold = 2 ∧ totalNodes = 2 then
    if mobileNodeID = "" then .error "mobile node ID is required for 2-of-2 signing"
    else .ok [mobileNodeID, "server-signer-p2"]
  else if threshold = 2 ∧ totalNodes = 3 then
    .ok ["server-proxy-1", "server-proxy-2"]
  else
    match discovered with
    | .error e => .error e
    | .ok participants =>
      let signingNodes := participants.filter
        (fun p => p.purpose = "signing" ∨ p.purpose = "")
      if signingNodes.length < threshold then
        .error "insufficient active signing nodes"
      else
        let needNodes0 := if totalNodes < threshold then threshold else totalNodes
        let needNodes := if signingNodes.length < needNodes0 then signingNodes.length
          else needNodes0
        .ok ((signingNodes.take needNodes).map NodeInfo.nodeID)

/-! ## HTTP handlers (post_sign_transaction.go, src/unnamed/part_012) -/

/-- `key.CreateKeyRequest` fields fixed by `postCreateWalletHandler`. -/
structure CreateKeyRequest where
  threshold : ℕ
  totalNodes : ℕ
  deriving DecidableEq

/-- The key placeholder built by `postCreateWalletHandler` (part_012):
the threshold (required signer count) and participant total are hardcoded
to 2 and 2. -/
def createWalletKeyRequest : CreateKeyRequest :=
  { threshold := 2, totalNodes := 2 }

/-- Inputs of the sign-transaction handler decision path; results of the
external collaborators (key store, session manager, discovery, JWT
parsing) are supplied as values. -/
structure SignHandlerInput where
  hasAssertion : Bool
  messageHex : Option String
  keyFound : Bool
  sessionCreated : Bool
  discoveredNodes : List String
  mobileNodeID : String
  deriving DecidableEq

/-- Observable actions of the sign-transaction handler. -/
inductive SignAction where
  | startSign (node : String)
  deriving DecidableEq, Repr

/-- The decision path of `postSignTransactionHandler`
(post_sign_transaction.go): the WebAuthn block (lines 53–60) performs no
verification on either branch (the assertion branch is a TODO, the missing
branch only logs a warning), the message hex is required and validated,
and — when a mobile node id resolves — a `StartSign` RPC is sent to each
discovered signer node.  No authorisation check runs on this path. -/
def postSignTransactionHandler (inp : SignHandlerInput) :
    Except String (List SignAction) :=
  let _webauthnBlock := if inp.hasAssertion then () else ()
  if ¬ inp.keyFound then .error "Wallet not found"
  else
    let messageHex := inp.messageHex.getD ""
    if messageHex = "" then .error "message_hex is required"
    else
      let messageHex := if 2 < messageHex.data.length ∧ messageHex.data.take 2 = ['0', 'x'] then
          String.mk (messageHex.data.drop 2)
        else messageHex
      match hexDecode messageHex with
      | none => .error "Invalid message_hex format"
      | some _ =>
        if ¬ inp.sessionCreated then .error "Failed to create signing session"
        else if inp.mobileNodeID = "" then .ok []
        else .ok (inp.discoveredNodes.map SignAction.startSign)

/-! ## Helper lemmas -/

theorem nsmul_mod_cancel {P : Type} [AddCommGroup P] (G : P) (n : ℕ)
    (h : n • G = 0) (a : ℕ) : (a % n) • G = a • G := by
  conv_rhs => rw [← Nat.div_add_mod a n]
  rw [add_nsmul, mul_nsmul, h]
  simp

theorem nsmul_congr_mod {P : Type} [AddCommGroup P] (G : P) (n : ℕ)
    (h : n • G = 0) {a b : ℕ} (hab : a ≡ b [MOD n]) : a • G = b • G := by
  rw [← nsmul_mod_cancel G n h a, ← nsmul_mod_cancel G n h b, hab]

theorem deriveStepsECDSA_spec {P : Type} [AddCommGroup P] (prims : DerivePrims P)
    (G : P) (Ks : List ℕ) (indices : List ℕ) :
    ∀ (xi : ℕ) (pub : P) (bigXj : List P) (cc : List ℕ) (xi2 : ℕ) (pub2 : P)
      (bigXj2 : List P) (cc2 : List ℕ),
      deriveStepsECDSA prims G Ks indices xi pub bigXj cc =
        .ok (xi2, pub2, bigXj2, cc2) →
      ∃ total : ℕ, xi2 ≡ xi + total [MOD secpN] ∧ pub2 = pub + total • G ∧
        bigXj2 = bigXj.map (fun pt => pt + total • G) := by
  induction indices with
  | nil =>
    intro xi pub bigXj cc xi2 pub2 bigXj2 cc2 h
    simp only [deriveStepsECDSA, Except.ok.injEq, Prod.mk.injEq] at h
    obtain ⟨h1, h2, h3, h4⟩ := h
    subst h1; subst h2; subst h3
    exact ⟨0, by simp [Nat.ModEq], by simp, by simp⟩
  | cons index rest ih =>
    intro xi pub bigXj cc xi2 pub2 bigXj2 cc2 h
    simp only [deriveStepsECDSA] at h
    cases hIL : computeIL prims pub cc index with
    | error e => simp [hIL] at h
    | ok p =>
      obtain ⟨il, nextCC⟩ := p
      simp only [hIL] at h
      by_cases hKs : Ks = []
      · simp [hKs] at h
      · rw [if_neg hKs] at h
        obtain ⟨t, h1, h2, h3⟩ := ih _ _ _ _ _ _ _ _ h
        refine ⟨il + t, ?_, ?_, ?_⟩
        · have := h1.trans ((Nat.mod_modEq (xi + il) secpN).add_right t)
          simpa [add_assoc] using this
        · rw [h2, add_nsmul, add_assoc]
        · rw [h3, List.map_map]
          apply List.map_congr_left
          intro pt _
          simp [Function.comp, add_nsmul, add_assoc]

theorem deriveStepsEdDSA_spec {P : Type} [AddCommGroup P] (prims : DerivePrims P)
    (G : P) (indices : List ℕ) :
    ∀ (xi : ℕ) (pub : P) (bigXj : List P) (cc : List ℕ) (xi2 : ℕ) (pub2 : P)
      (bigXj2 : List P) (cc2 : List ℕ),
      deriveStepsEdDSA prims G indices xi pub bigXj cc =
        .ok (xi2, pub2, bigXj2, cc2) →
      ∃ total : ℕ, xi2 ≡ xi + total [MOD edN] ∧ pub2 = pub + total • G ∧
        bigXj2 = bigXj.map (fun pt => pt + total • G) := by
  induction indices with
  | nil =>
    intro xi pub bigXj cc xi2 pub2 bigXj2 cc2 h
    simp only [deriveStepsEdDSA, Except.ok.injEq, Prod.mk.injEq] at h
    obtain ⟨h1, h2, h3, h4⟩ := h
    subst h1; subst h2; subst h3
    exact ⟨0, by simp [Nat.ModEq], by simp, by simp⟩
  | cons index rest ih =>
    intro xi pub bigXj cc xi2 pub2 bigXj2 cc2 h
    simp only [deriveStepsEdDSA] at h
    cases hIL : computeIL_Ed25519 prims.hmac (prims.ser pub) cc index with
    | error e => simp [hIL] at h
    | ok p =>
      obtain ⟨il, nextCC⟩ := p
      simp only [hIL] at h
      obtain ⟨t, h1, h2, h3⟩ := ih _ _ _ _ _ _ _ _ h
      refine ⟨il + t, ?_, ?_, ?_⟩
      · have := h1.trans ((Nat.mod_modEq (xi + il) edN).add_right t)
        simpa [add_assoc] using this
      · rw [h2, add_nsmul, add_assoc]
      · rw [h3, List.map_map]
        apply List.map_congr_left
        intro pt _
        simp [Function.comp, add_nsmul, add_assoc]

theorem deriveStepsECDSA_append {P : Type} [AddCommGroup P] (prims : DerivePrims P)
    (G : P) (Ks : List ℕ) (as : List ℕ) :
    ∀ (bs : List ℕ) (xi : ℕ) (pub : P) (bigXj : List P) (cc : List ℕ),
      deriveStepsECDSA prims G Ks (as ++ bs) xi pub bigXj cc =
        (deriveStepsECDSA prims G Ks as xi pub bigXj cc).bind
          (fun s => deriveStepsECDSA prims G Ks bs s.1 s.2.1 s.2.2.1 s.2.2.2) := by
  induction as with
  | nil => intro bs xi pub bigXj cc; simp [deriveStepsECDSA, Except.bind]
  | cons a rest ih =>
    intro bs xi pub bigXj cc
    simp only [List.cons_append, deriveStepsECDSA]
    cases hIL : computeIL prims pub cc a with
    | error e => simp [Except.bind]
    | ok p =>
      obtain ⟨il, nextCC⟩ := p
      by_cases hKs : Ks = []
      · simp [hKs, Except.bind]
      · simp only [if_neg hKs]
        exact ih bs _ _ _ _

theorem deriveStepsEdDSA_append {P : Type} [AddCommGroup P] (prims : DerivePrims P)
    (G : P) (as : List ℕ) :
    ∀ (bs : List ℕ) (xi : ℕ) (pub : P) (bigXj : List P) (cc : List ℕ),
      deriveStepsEdDSA prims G (as ++ bs) xi pub bigXj cc =
        (deriveStepsEdDSA prims G as xi pub bigXj cc).bind
          (fun s => deriveStepsEdDSA prims G bs s.1 s.2.1 s.2.2.1 s.2.2.2) := by
  induction as with
  | nil => intro bs xi pub bigXj cc; simp [deriveStepsEdDSA, Except.bind]
  | cons a rest ih =>
    intro bs xi pub bigXj cc
    simp only [List.cons_append, deriveStepsEdDSA]
    cases hIL : computeIL_Ed25519 prims.hmac (prims.ser pub) cc a with
    | error e => simp [Except.bind]
    | ok p =>
      obtain ⟨il, nextCC⟩ := p
      exact ih bs _ _ _ _

theorem deriveStepsECDSA_hardened {P : Type} [AddCommGroup P] (prims : DerivePrims P)
    (G : P) (Ks : List ℕ) (indices : List ℕ) :
    ∀ (xi : ℕ) (pub : P) (bigXj : List P) (cc : List ℕ),
      (∃ i ∈ indices, 0x80000000 ≤ i) →
      ∃ e, deriveStepsECDSA prims G Ks indices xi pub bigXj cc = .error e := by
  induction indices with
  | nil => intro xi pub bigXj cc h; simp at h
  | cons a rest ih =>
    intro xi pub bigXj cc h
    by_cases ha : 0x80000000 ≤ a
    · refine ⟨.hardenedNotSupported, ?_⟩
      simp [deriveStepsECDSA, computeIL, ha]
    · obtain ⟨i, hi, hhard⟩ := h
      have hir : i ∈ rest := by
        rcases List.mem_cons.mp hi with h1 | h1
        · exact absurd (h1 ▸ hhard) ha
        · exact h1
      simp only [deriveStepsECDSA]
      cases hIL : computeIL prims pub cc a with
      | error e => exact ⟨e, by simp⟩
      | ok p =>
        obtain ⟨il, nextCC⟩ := p
        by_cases hKs : Ks = []
        · exact ⟨.emptyKs, by simp [hKs]⟩
        · simp only [if_neg hKs]
          exact ih _ _ _ _ ⟨i, hir, hhard⟩

theorem deriveStepsEdDSA_hardened {P : Type} [AddCommGroup P] (prims : DerivePrims P)
    (G : P) (indices : List ℕ) :
    ∀ (xi : ℕ) (pub : P) (bigXj : List P) (cc : List ℕ),
      (∃ i ∈ indices, 0x80000000 ≤ i) →
      ∃ e, deriveStepsEdDSA prims G indices xi pub bigXj cc = .error e := by
  induction indices with
  | nil => intro xi pub bigXj cc h; simp at h
  | cons a rest ih =>
    intro xi pub bigXj cc h
    by_cases ha : 0x80000000 ≤ a
    · refine ⟨.hardenedNotSupported, ?_⟩
      simp [deriveStepsEdDSA, computeIL_Ed25519, ha]
    · obtain ⟨i, hi, hhard⟩ := h
      have hir : i ∈ rest := by
        rcases List.mem_cons.mp hi with h1 | h1
        · exact absurd (h1 ▸ hhard) ha
        · exact h1
      simp only [deriveStepsEdDSA]
      cases hIL : computeIL_Ed25519 prims.hmac (prims.ser pub) cc a with
      | error e => exact ⟨e, by simp⟩
      | ok p =>
        obtain ⟨il, nextCC⟩ := p
        exact ih _ _ _ _ ⟨i, hir, hhard⟩

theorem parseDerivationPath_empty : parseDerivationPath "" = .ok [] := rfl

/-- Success cases of the ECDSA derivation: either a trivial path returning
the parent, or a completed loop whose output passed the invariant check. -/
theorem DeriveLocalPartySaveData_ok_cases {P : Type} [AddCommGroup P] [DecidableEq P]
    (prims : DerivePrims P) (G : P) (parent : LocalPartySaveData P) (cc : List ℕ)
    (path : String) (child : LocalPartySaveData P)
    (h : DeriveLocalPartySaveData prims G parent cc path = .ok child) :
    child = parent ∨
    ∃ (indices : List ℕ) (xi : ℕ) (pub : P) (bigXj : List P) (cc2 : List ℕ),
      parseDerivationPath path = .ok indices ∧ indices ≠ [] ∧
      deriveStepsECDSA prims G parent.Ks indices parent.Xi parent.ECDSAPub
          parent.BigXj cc = .ok (xi, pub, bigXj, cc2) ∧
      child = ⟨parent.Ks, parent.ShareID, xi, bigXj, pub⟩ := by
  by_cases hp : path = ""
  · simp [DeriveLocalPartySaveData, hp] at h
    exact Or.inl h.symm
  · simp only [DeriveLocalPartySaveData, if_neg hp] at h
    cases hparse : parseDerivationPath path with
    | error e => simp [hparse] at h
    | ok indices =>
      simp only [hparse] at h
      by_cases hnil : indices = []
      · simp [hnil] at h
        exact Or.inl h.symm
      · simp only [if_neg hnil] at h
        cases hsteps : deriveStepsECDSA prims G parent.Ks indices parent.Xi
            parent.ECDSAPub parent.BigXj cc with
        | error e => simp [hsteps] at h
        | ok s =>
          obtain ⟨xi, pub, bigXj, cc2⟩ := s
          simp only [hsteps] at h
          refine Or.inr ⟨indices, xi, pub, bigXj, cc2, rfl, hnil, hsteps, ?_⟩
          cases hfind : (parent.Ks).findIdx? (fun k => k = parent.ShareID) with
          | none => simp [hfind] at h; exact h.symm
          | some my =>
            simp only [hfind] at h
            cases hget : bigXj[my]? with
            | none => simp [hget] at h; exact h.symm
            | some pt =>
              simp only [hget] at h
              by_cases hinv : xi • G = pt
              · simp [hinv] at h; exact h.symm
              · simp [hinv] at h

/-- Success cases of the EdDSA derivation: either a trivial path returning
the parent, or the completed loop output, returned without any check. -/
theorem DeriveEdDSALocalPartySaveData_ok_cases {P : Type} [AddCommGroup P]
    (prims : DerivePrims P) (G : P) (parent : EdLocalPartySaveData P) (cc : List ℕ)
    (path : String) (child : EdLocalPartySaveData P)
    (h : DeriveEdDSALocalPartySaveData prims G parent cc path = .ok child) :
    child = parent ∨
    ∃ (indices : List ℕ) (xi : ℕ) (pub : P) (bigXj : List P) (cc2 : List ℕ),
      parseDerivationPath path = .ok indices ∧ indices ≠ [] ∧
      deriveStepsEdDSA prims G indices parent.Xi parent.EDDSAPub
          parent.BigXj cc = .ok (xi, pub, bigXj, cc2) ∧
      child = ⟨parent.Ks, parent.ShareID, xi, bigXj, pub⟩ := by
  by_cases hp : path = ""
  · simp [DeriveEdDSALocalPartySaveData, hp] at h
    exact Or.inl h.symm
  · simp only [DeriveEdDSALocalPartySaveData, if_neg hp] at h
    cases hparse : parseDerivationPath path with
    | error e => simp [hparse] at h
    | ok indices =>
      simp only [hparse] at h
      by_cases hnil : indices = []
      · simp [hnil] at h
        exact Or.inl h.symm
      · simp only [if_neg hnil] at h
        cases hsteps : deriveStepsEdDSA prims G indices parent.Xi
            parent.EDDSAPub parent.BigXj cc with
        | error e => simp [hsteps] at h
        | ok s =>
          obtain ⟨xi, pub, bigXj, cc2⟩ := s
          simp only [hsteps] at h
          exact Or.inr ⟨indices, xi, pub, bigXj, cc2, rfl, hnil, hsteps, (Except.ok.inj h).symm⟩

/-! ## Concrete instances used by witnesses and counterexamples -/

/-- Concrete derivation primitives over the group `ℤ`: a fixed HMAC output
whose first 32 bytes encode the scalar 1, and a fixed 33-byte encoding. -/
def exPrims : DerivePrims ℤ :=
  { hmac := fun _ _ => List.replicate 31 0 ++ 1 :: List.replicate 32 7,
    ser := fun _ => List.replicate 33 2 }

/-- The same primitives over the trivial group `ZMod 1` (in which every
group order annihilates the base point). -/
def exPrimsZ1 : DerivePrims (ZMod 1) :=
  { hmac := fun _ _ => List.replicate 31 0 ++ 1 :: List.replicate 32 7,
    ser := fun _ => List.replicate 33 2 }

/-- An ECDSA parent bundle over `ℤ` satisfying the local share invariant
for base point 1. -/
def exParentECDSA : LocalPartySaveData ℤ :=
  { Ks := [1], ShareID := 1, Xi := 5, BigXj := [5], ECDSAPub := 5 }

/-- An EdDSA parent bundle over `ℤ` satisfying the local share invariant
for base point 1. -/
def exParentEd : EdLocalPartySaveData ℤ :=
  { Ks := [1], ShareID := 1, Xi := 5, BigXj := [5], EDDSAPub := 5 }

/-- An EdDSA parent bundle over `ℤ` that violates the local share
invariant for base point 1 (`5 · 1 ≠ 7`). -/
def exBrokenParentEd : EdLocalPartySaveData ℤ :=
  { Ks := [1], ShareID := 1, Xi := 5, BigXj := [7], EDDSAPub := 7 }

/-- The bundle obtained by deriving `exBrokenParentEd` along `"0"` with
`exPrims`; it still violates the invariant (`6 · 1 ≠ 8`). -/
def exDerivedBrokenEd : EdLocalPartySaveData ℤ :=
  { Ks := [1], ShareID := 1, Xi := 6, BigXj := [8], EDDSAPub := 8 }

/-- An ECDSA parent over the trivial group. -/
def exParentZ1 : LocalPartySaveData (ZMod 1) :=
  { Ks := [1], ShareID := 1, Xi := 5, BigXj := [0], ECDSAPub := 0 }

/-- An EdDSA parent over the trivial group. -/
def exParentEdZ1 : EdLocalPartySaveData (ZMod 1) :=
  { Ks := [1], ShareID := 1, Xi := 5, BigXj := [0], EDDSAPub := 0 }

/-- The 32-byte big-endian encoding of the Ed25519 group order `edN`. -/
def edNBytes : List ℕ :=
  [0x10, 0, 0, 0, 0, 0, 0, 0, 0, 0, 0, 0, 0, 0, 0, 0,
   0x14, 0xde, 0xf9, 0xde, 0xa2, 0xf7, 0x9c, 0xd6,
   0x58, 0x12, 0x63, 0x1a, 0x5c, 0xf5, 0xd3, 0xed]

/-- An HMAC stub whose IL half encodes exactly the Ed25519 group order. -/
def exHmacEdOrder : List ℕ → List ℕ → List ℕ :=
  fun _ _ => edNBytes ++ List.replicate 32 7

/-- An HMAC stub whose IL half is zero. -/
def exHmacZero : List ℕ → List ℕ → List ℕ :=
  fun _ _ => List.replicate 64 0

/-! ## Claim C10 -/

/-- C10: deriving with an empty path, or with a path that parses to no
indices (`"m"`, separator-only strings, the empty string), returns the
parent bundle itself unchanged, for both the ECDSA and the EdDSA
derivation functions. -/
theorem C10_trivial_path_is_identity :
    (∀ (P : Type) [AddCommGroup P] [DecidableEq P] (prims : DerivePrims P) (G : P)
       (parent : LocalPartySaveData P) (cc : List ℕ) (path : String),
       parseDerivationPath path = .ok [] →
       DeriveLocalPartySaveData prims G parent cc path = .ok parent) ∧
    (∀ (P : Type) [AddCommGroup P] (prims : DerivePrims P) (G : P)
       (parent : EdLocalPartySaveData P) (cc : List ℕ) (path : String),
       parseDerivationPath path = .ok [] →
       DeriveEdDSALocalPartySaveData prims G parent cc path = .ok parent) := by
  constructor
  · intro P _ _ prims G parent cc path hparse
    by_cases hp : path = ""
    · simp [DeriveLocalPartySaveData, hp]
    · simp [DeriveLocalPartySaveData, hp, hparse]
  · intro P _ prims G parent cc path hparse
    by_cases hp : path = ""
    · simp [DeriveEdDSALocalPartySaveData, hp]
    · simp [DeriveEdDSALocalPartySaveData, hp, hparse]

/-- Witness for C10 at the concrete paths `"m"` and `"///"`. -/
theorem C10_witness :
    parseDerivationPath "m" = .ok [] ∧ parseDerivationPath "///" = .ok [] ∧
    DeriveLocalPartySaveData exPrims (1 : ℤ) exParentECDSA (List.replicate 32 0) "m" =
      .ok exParentECDSA ∧
    DeriveEdDSALocalPartySaveData exPrims (1 : ℤ) exParentEd (List.replicate 32 0) "///" =
      .ok exParentEd :=
  ⟨rfl, rfl,
    C10_trivial_path_is_identity.1 ℤ exPrims 1 exParentECDSA (List.replicate 32 0) "m" rfl,
    C10_trivial_path_is_identity.2 ℤ exPrims 1 exParentEd (List.replicate 32 0) "///" rfl⟩

/-! ## Claim C6 -/

/-- C6: a derivation path containing an index `≥ 2^31` always fails (no
derived bundle is produced), on both curves; and whenever the loop reaches
the first hardened index (the steps before it succeed), the error is
precisely the hardened-not-supported error. -/
theorem C6_hardened_path_fails :
    (∀ (P : Type) [AddCommGroup P] [DecidableEq P] (prims : DerivePrims P) (G : P)
       (parent : LocalPartySaveData P) (cc : List ℕ) (path : String)
       (indices : List ℕ),
       parseDerivationPath path = .ok indices →
       (∃ i ∈ indices, 0x80000000 ≤ i) →
       (∃ e, DeriveLocalPartySaveData prims G parent cc path = .error e) ∧
       (∀ pre i post,
         indices = pre ++ i :: post → 0x80000000 ≤ i →
         (∃ s, deriveStepsECDSA prims G parent.Ks pre parent.Xi parent.ECDSAPub
             parent.BigXj cc = .ok s) →
         DeriveLocalPartySaveData prims G parent cc path =
           .error .hardenedNotSupported)) ∧
    (∀ (P : Type) [AddCommGroup P] (prims : DerivePrims P) (G : P)
       (parent : EdLocalPartySaveData P) (cc : List ℕ) (path : String)
       (indices : List ℕ),
       parseDerivationPath path = .ok indices →
       (∃ i ∈ indices, 0x80000000 ≤ i) →
       (∃ e, DeriveEdDSALocalPartySaveData prims G parent cc path = .error e) ∧
       (∀ pre i post,
         indices = pre ++ i :: post → 0x80000000 ≤ i →
         (∃ s, deriveStepsEdDSA prims G pre parent.Xi parent.EDDSAPub
             parent.BigXj cc = .ok s) →
         DeriveEdDSALocalPartySaveData prims G parent cc path =
           .error .hardenedNotSupported)) := by
  constructor
  · intro P _ _ prims G parent cc path indices hparse hhard
    have hnil : indices ≠ [] := by
      rintro rfl
      obtain ⟨i, hi, _⟩ := hhard
      simp at hi
    have hp : path ≠ "" := by
      rintro rfl
      rw [parseDerivationPath_empty] at hparse
      exact hnil (Except.ok.inj hparse).symm
    constructor
    · obtain ⟨e, hsteps⟩ := deriveStepsECDSA_hardened prims G parent.Ks indices
        parent.Xi parent.ECDSAPub parent.BigXj cc hhard
      exact ⟨e, by simp [DeriveLocalPartySaveData, hp, hparse, hnil, hsteps]⟩
    · rintro pre i post rfl hi ⟨s, hpre⟩
      have hsteps : deriveStepsECDSA prims G parent.Ks (pre ++ i :: post) parent.Xi
          parent.ECDSAPub parent.BigXj cc = .error .hardenedNotSupported := by
        rw [deriveStepsECDSA_append, hpre]
        simp [Except.bind, deriveStepsECDSA, computeIL, hi]
      simp [DeriveLocalPartySaveData, hp, hparse, hnil, hsteps]
  · intro P _ prims G parent cc path indices hparse hhard
    have hnil : indices ≠ [] := by
      rintro rfl
      obtain ⟨i, hi, _⟩ := hhard
      simp at hi
    have hp : path ≠ "" := by
      rintro rfl
      rw [parseDerivationPath_empty] at hparse
      exact hnil (Except.ok.inj hparse).symm
    constructor
    · obtain ⟨e, hsteps⟩ := deriveStepsEdDSA_hardened prims G indices
        parent.Xi parent.EDDSAPub parent.BigXj cc hhard
      exact ⟨e, by simp [DeriveEdDSALocalPartySaveData, hp, hparse, hnil, hsteps]⟩
    · rintro pre i post rfl hi ⟨s, hpre⟩
      have hsteps : deriveStepsEdDSA prims G (pre ++ i :: post) parent.Xi
          parent.EDDSAPub parent.BigXj cc = .error .hardenedNotSupported := by
        rw [deriveStepsEdDSA_append, hpre]
        simp [Except.bind, deriveStepsEdDSA, computeIL_Ed25519, hi]
      simp [DeriveEdDSALocalPartySaveData, hp, hparse, hnil, hsteps]

/-- Witness for C6 at the concrete paths `"0h"` and `"2147483648"`. -/
theorem C6_witness :
    parseDerivationPath "0h" = .ok [2147483648] ∧
    DeriveLocalPartySaveData exPrims (1 : ℤ) exParentECDSA (List.replicate 32 0) "0h" =
      .error .hardenedNotSupported ∧
    DeriveEdDSALocalPartySaveData exPrims (1 : ℤ) exParentEd (List.replicate 32 0)
      "2147483648" = .error .hardenedNotSupported := by
  refine ⟨rfl, ?_, ?_⟩
  · exact ((C6_hardened_path_fails.1 ℤ exPrims 1 exParentECDSA (List.replicate 32 0)
      "0h" [2147483648] rfl ⟨2147483648, by simp, by decide⟩).2 [] 2147483648 []
      rfl (by decide) ⟨_, rfl⟩)
  · exact ((C6_hardened_path_fails.2 ℤ exPrims 1 exParentEd (List.replicate 32 0)
      "2147483648" [2147483648] rfl ⟨2147483648, by simp, by decide⟩).2 [] 2147483648 []
      rfl (by decide) ⟨_, rfl⟩)

/-! ## Claim C5 -/

/-- C5 counterexample: on Ed25519 an IL equal to the group order (so
`il ≥ n` and `il ≠ 0`) is accepted by `computeIL_Ed25519`, although the
claim requires the step to fail; the upper-bound check is skipped in the
source. -/
theorem C5_counterexample :
    edN ≤ beToNat ((exHmacEdOrder (List.replicate 32 0)
      (List.replicate 32 9 ++ be32 0)).take 32) ∧
    computeIL_Ed25519 exHmacEdOrder (List.replicate 32 9) (List.replicate 32 0) 0 =
      .ok (edN, List.replicate 32 7) := by
  constructor
  · have h : beToNat ((exHmacEdOrder (List.replicate 32 0)
        (List.replicate 32 9 ++ be32 0)).take 32) = edN := by decide
    rw [h]
  · rfl

/-- C5 (amended): a secp256k1 derivation step rejects `il = 0` and
`il ≥ n`; an Ed25519 derivation step rejects only `il = 0`, and accepts
any non-zero `il`, including `il ≥ n` (the scalar arithmetic then reduces
modulo the order). -/
theorem C5_il_range_checks :
    (∀ (P : Type) (prims : DerivePrims P) (pub : P) (cc : List ℕ) (index : ℕ),
       index < 0x80000000 → cc.length = 32 →
       (secpN ≤ beToNat ((prims.hmac cc (prims.ser pub ++ be32 index)).take 32) ∨
        beToNat ((prims.hmac cc (prims.ser pub ++ be32 index)).take 32) = 0) →
       computeIL prims pub cc index = .error .invalidIL) ∧
    (∀ (hmac : List ℕ → List ℕ → List ℕ) (pubKeyBytes cc : List ℕ) (index : ℕ),
       index < 0x80000000 → cc.length = 32 →
       beToNat ((hmac cc (pubKeyBytes ++ be32 index)).take 32) = 0 →
       computeIL_Ed25519 hmac pubKeyBytes cc index = .error .invalidIL) ∧
    (∀ (hmac : List ℕ → List ℕ → List ℕ) (pubKeyBytes cc : List ℕ) (index : ℕ),
       index < 0x80000000 → cc.length = 32 →
       beToNat ((hmac cc (pubKeyBytes ++ be32 index)).take 32) ≠ 0 →
       computeIL_Ed25519 hmac pubKeyBytes cc index =
         .ok (beToNat ((hmac cc (pubKeyBytes ++ be32 index)).take 32),
              (hmac cc (pubKeyBytes ++ be32 index)).drop 32)) := by
  refine ⟨?_, ?_, ?_⟩
  · intro P prims pub cc index hidx hcc hil
    simp [computeIL, Nat.not_le.mpr hidx, hcc, hil]
  · intro hmac pubKeyBytes cc index hidx hcc hil
    simp [computeIL_Ed25519, Nat.not_le.mpr hidx, hcc, hil]
  · intro hmac pubKeyBytes cc index hidx hcc hil
    simp [computeIL_Ed25519, Nat.not_le.mpr hidx, hcc, hil]

/-- Derivation primitives over the trivial group whose HMAC stub yields a
zero IL. -/
def exPrimsZeroZ1 : DerivePrims (ZMod 1) :=
  { hmac := exHmacZero, ser := fun _ => List.replicate 33 2 }

/-- Witness for C5 at concrete inputs: a zero IL is rejected on both
curves, a non-zero IL at the order is accepted on Ed25519. -/
theorem C5_witness :
    computeIL exPrimsZeroZ1 (0 : ZMod 1) (List.replicate 32 0) 3 = .error .invalidIL ∧
    computeIL_Ed25519 exHmacZero [] (List.replicate 32 0) 0 = .error .invalidIL ∧
    computeIL_Ed25519 exHmacEdOrder [] (List.replicate 32 0) 0 =
      .ok (beToNat ((exHmacEdOrder (List.replicate 32 0) ([] ++ be32 0)).take 32),
           (exHmacEdOrder (List.replicate 32 0) ([] ++ be32 0)).drop 32) :=
  ⟨C5_il_range_checks.1 (ZMod 1) exPrimsZeroZ1 0 (List.replicate 32 0) 3 (by decide)
      (by decide) (Or.inr (by decide)),
   C5_il_range_checks.2.1 exHmacZero [] (List.replicate 32 0) 0 (by decide) (by decide)
      (by decide),
   C5_il_range_checks.2.2 exHmacEdOrder [] (List.replicate 32 0) 0 (by decide)
      (by decide) (by decide)⟩

/-! ## Claim C3 -/

theorem derive_invariant_clauses {P : Type} [AddCommGroup P] (G : P) (n total : ℕ)
    (hord : n • G = 0) (pXi cXi : ℕ) (pBig cBig : List P)
    (hmap : cBig = pBig.map (fun pt => pt + total • G))
    (hXi : cXi ≡ pXi + total [MOD n]) :
    (∀ (j x : ℕ) (pt ptc : P), pBig[j]? = some pt → cBig[j]? = some ptc →
      x • G = pt → (x + total) • G = ptc) ∧
    (∀ (j : ℕ) (pt ptc : P), pBig[j]? = some pt → cBig[j]? = some ptc →
      pXi • G = pt → cXi • G = ptc) := by
  subst hmap
  constructor
  · intro j x pt ptc hp hc hx
    rw [List.getElem?_map, hp] at hc
    simp only [Option.map_some', Option.some.injEq] at hc
    rw [← hc, add_nsmul, hx]
  · intro j pt ptc hp hc hx
    rw [List.getElem?_map, hp] at hc
    simp only [Option.map_some', Option.some.injEq] at hc
    rw [← hc, nsmul_congr_mod G n hord hXi, add_nsmul, hx]

/-- C3: a successful derivation (over either curve) shifts the whole
bundle by a single accumulated scalar `total` (the sum of the per-step
`il` values): the group public key becomes `P + total·G`, every public
share `X_j` becomes `X_j + total·G`, the local share becomes
`x_i + total (mod n)`, and the share invariant `x_j·G = X_j` is preserved
for every participant (for the local participant via the stored share, for
the others via any scalar matching the stored public share). -/
theorem C3_derivation_homomorphism :
    (∀ (P : Type) [AddCommGroup P] [DecidableEq P] (prims : DerivePrims P) (G : P)
       (parent child : LocalPartySaveData P) (cc : List ℕ) (path : String),
       secpN • G = 0 →
       DeriveLocalPartySaveData prims G parent cc path = .ok child →
       ∃ total : ℕ,
         child.ECDSAPub = parent.ECDSAPub + total • G ∧
         child.BigXj = parent.BigXj.map (fun pt => pt + total • G) ∧
         child.Xi ≡ parent.Xi + total [MOD secpN] ∧
         (∀ (j x : ℕ) (pt ptc : P), parent.BigXj[j]? = some pt →
           child.BigXj[j]? = some ptc → x • G = pt → (x + total) • G = ptc) ∧
         (∀ (j : ℕ) (pt ptc : P), parent.BigXj[j]? = some pt →
           child.BigXj[j]? = some ptc → parent.Xi • G = pt → child.Xi • G = ptc)) ∧
    (∀ (P : Type) [AddCommGroup P] (prims : DerivePrims P) (G : P)
       (parent child : EdLocalPartySaveData P) (cc : List ℕ) (path : String),
       edN • G = 0 →
       DeriveEdDSALocalPartySaveData prims G parent cc path = .ok child →
       ∃ total : ℕ,
         child.EDDSAPub = parent.EDDSAPub + total • G ∧
         child.BigXj = parent.BigXj.map (fun pt => pt + total • G) ∧
         child.Xi ≡ parent.Xi + total [MOD edN] ∧
         (∀ (j x : ℕ) (pt ptc : P), parent.BigXj[j]? = some pt →
           child.BigXj[j]? = some ptc → x • G = pt → (x + total) • G = ptc) ∧
         (∀ (j : ℕ) (pt ptc : P), parent.BigXj[j]? = some pt →
           child.BigXj[j]? = some ptc → parent.Xi • G = pt → child.Xi • G = ptc)) := by
  constructor
  · intro P _ _ prims G parent child cc path hord hok
    rcases DeriveLocalPartySaveData_ok_cases prims G parent cc path child hok with
      rfl | ⟨indices, xi, pub, bigXj, cc2, hparse, hnil, hsteps, rfl⟩
    · refine ⟨0, by simp, by simp, by simp [Nat.ModEq], ?_⟩
      exact derive_invariant_clauses G secpN 0 hord child.Xi child.Xi child.BigXj
        child.BigXj (by simp) (by simp [Nat.ModEq])
    · obtain ⟨total, h1, h2, h3⟩ :=
        deriveStepsECDSA_spec prims G parent.Ks indices parent.Xi parent.ECDSAPub
          parent.BigXj cc xi pub bigXj cc2 hsteps
      exact ⟨total, h2, h3, h1,
        derive_invariant_clauses G secpN total hord parent.Xi xi parent.BigXj bigXj h3 h1⟩
  · intro P _ prims G parent child cc path hord hok
    rcases DeriveEdDSALocalPartySaveData_ok_cases prims G parent cc path child hok with
      rfl | ⟨indices, xi, pub, bigXj, cc2, hparse, hnil, hsteps, rfl⟩
    · refine ⟨0, by simp, by simp, by simp [Nat.ModEq], ?_⟩
      exact derive_invariant_clauses G edN 0 hord child.Xi child.Xi child.BigXj
        child.BigXj (by simp) (by simp [Nat.ModEq])
    · obtain ⟨total, h1, h2, h3⟩ :=
        deriveStepsEdDSA_spec prims G indices parent.Xi parent.EDDSAPub
          parent.BigXj cc xi pub bigXj cc2 hsteps
      exact ⟨total, h2, h3, h1,
        derive_invariant_clauses G edN total hord parent.Xi xi parent.BigXj bigXj h3 h1⟩

/-- The bundle obtained by deriving `exParentZ1` along `"0"`. -/
def exDerivedZ1 : LocalPartySaveData (ZMod 1) :=
  { Ks := [1], ShareID := 1, Xi := 6, BigXj := [0], ECDSAPub := 0 }

/-- The bundle obtained by deriving `exParentEdZ1` along `"0"`. -/
def exDerivedEdZ1 : EdLocalPartySaveData (ZMod 1) :=
  { Ks := [1], ShareID := 1, Xi := 6, BigXj := [0], EDDSAPub := 0 }

/-- Witness for C3 over the (trivial, order-dividing) group `ZMod 1`. -/
theorem C3_witness :
    (∃ total : ℕ,
      exDerivedZ1.ECDSAPub = exParentZ1.ECDSAPub + total • (0 : ZMod 1) ∧
      exDerivedZ1.BigXj = exParentZ1.BigXj.map (fun pt => pt + total • (0 : ZMod 1)) ∧
      exDerivedZ1.Xi ≡ exParentZ1.Xi + total [MOD secpN] ∧
      (∀ (j x : ℕ) (pt ptc : ZMod 1), exParentZ1.BigXj[j]? = some pt →
        exDerivedZ1.BigXj[j]? = some ptc → x • (0 : ZMod 1) = pt →
        (x + total) • (0 : ZMod 1) = ptc) ∧
      (∀ (j : ℕ) (pt ptc : ZMod 1), exParentZ1.BigXj[j]? = some pt →
        exDerivedZ1.BigXj[j]? = some ptc → exParentZ1.Xi • (0 : ZMod 1) = pt →
        exDerivedZ1.Xi • (0 : ZMod 1) = ptc)) ∧
    (∃ total : ℕ,
      exDerivedEdZ1.EDDSAPub = exParentEdZ1.EDDSAPub + total • (0 : ZMod 1) ∧
      exDerivedEdZ1.BigXj = exParentEdZ1.BigXj.map
        (fun pt => pt + total • (0 : ZMod 1)) ∧
      exDerivedEdZ1.Xi ≡ exParentEdZ1.Xi + total [MOD edN] ∧
      (∀ (j x : ℕ) (pt ptc : ZMod 1), exParentEdZ1.BigXj[j]? = some pt →
        exDerivedEdZ1.BigXj[j]? = some ptc → x • (0 : ZMod 1) = pt →
        (x + total) • (0 : ZMod 1) = ptc) ∧
      (∀ (j : ℕ) (pt ptc : ZMod 1), exParentEdZ1.BigXj[j]? = some pt →
        exDerivedEdZ1.BigXj[j]? = some ptc → exParentEdZ1.Xi • (0 : ZMod 1) = pt →
        exDerivedEdZ1.Xi • (0 : ZMod 1) = ptc)) :=
  ⟨C3_derivation_homomorphism.1 (ZMod 1) exPrimsZ1 0 exParentZ1 exDerivedZ1
      (List.replicate 32 0) "0" (Subsingleton.elim _ _) rfl,
   C3_derivation_homomorphism.2 (ZMod 1) exPrimsZ1 0 exParentEdZ1 exDerivedEdZ1
      (List.replicate 32 0) "0" (Subsingleton.elim _ _) rfl⟩

/-! ## Claim C4 -/

/-- C4 counterexample: the EdDSA derivation returns a derived bundle that
violates the local invariant `x_i·G = X_{my}` without failing — no
post-derivation check is performed on that scheme, refuting the claim that
every scheme checks and fails on mismatch. -/
theorem C4_counterexample :
    DeriveEdDSALocalPartySaveData exPrims (1 : ℤ) exBrokenParentEd
      (List.replicate 32 0) "0" = .ok exDerivedBrokenEd ∧
    exDerivedBrokenEd.Ks.findIdx? (fun k => k = exDerivedBrokenEd.ShareID) = some 0 ∧
    exDerivedBrokenEd.BigXj[0]? = some 8 ∧
    exDerivedBrokenEd.Xi • (1 : ℤ) ≠ 8 := by
  refine ⟨rfl, rfl, rfl, ?_⟩
  decide

/-- C4 (amended): only the ECDSA derivation performs the post-derivation
check — whenever it succeeds on a non-trivial path and `ShareID` occurs in
`Ks` with a corresponding public share, the derived local share satisfies
`x_i·G = X_{my}` (a mismatch would have produced the derivation-invariant
error); the EdDSA derivation returns the loop output unconditionally,
without any such check. -/
theorem C4_post_derivation_check :
    (∀ (P : Type) [AddCommGroup P] [DecidableEq P] (prims : DerivePrims P) (G : P)
       (parent child : LocalPartySaveData P) (cc : List ℕ) (path : String)
       (indices : List ℕ) (my : ℕ) (pt : P),
       parseDerivationPath path = .ok indices → indices ≠ [] →
       DeriveLocalPartySaveData prims G parent cc path = .ok child →
       child.Ks.findIdx? (fun k => k = child.ShareID) = some my →
       child.BigXj[my]? = some pt →
       child.Xi • G = pt) ∧
    (∀ (P : Type) [AddCommGroup P] (prims : DerivePrims P) (G : P)
       (parent : EdLocalPartySaveData P) (cc : List ℕ) (path : String)
       (indices : List ℕ) (xi : ℕ) (pub : P) (bigXj : List P) (cc2 : List ℕ),
       parseDerivationPath path = .ok indices → indices ≠ [] →
       deriveStepsEdDSA prims G indices parent.Xi parent.EDDSAPub parent.BigXj cc =
         .ok (xi, pub, bigXj, cc2) →
       DeriveEdDSALocalPartySaveData prims G parent cc path =
         .ok { Ks := parent.Ks, ShareID := parent.ShareID, Xi := xi,
               BigXj := bigXj, EDDSAPub := pub }) := by
  constructor
  · intro P _ _ prims G parent child cc path indices my pt hparse hnil hok hfind hget
    have hp : path ≠ "" := by
      rintro rfl
      rw [parseDerivationPath_empty] at hparse
      exact hnil (Except.ok.inj hparse).symm
    simp only [DeriveLocalPartySaveData, if_neg hp, hparse] at hok
    rw [if_neg hnil] at hok
    cases hsteps : deriveStepsECDSA prims G parent.Ks indices parent.Xi
        parent.ECDSAPub parent.BigXj cc with
    | error e => simp [hsteps] at hok
    | ok s =>
      obtain ⟨xi, pub, bigXj, cc2⟩ := s
      simp only [hsteps] at hok
      cases hfind0 : parent.Ks.findIdx? (fun k => k = parent.ShareID) with
      | none =>
        simp only [hfind0] at hok
        have hchild : child = ⟨parent.Ks, parent.ShareID, xi, bigXj, pub⟩ :=
          (Except.ok.inj hok).symm
        rw [hchild] at hfind
        simp only at hfind
        rw [hfind0] at hfind
        exact absurd hfind (by simp)
      | some my0 =>
        simp only [hfind0] at hok
        cases hget0 : bigXj[my0]? with
        | none =>
          simp only [hget0] at hok
          have hchild : child = ⟨parent.Ks, parent.ShareID, xi, bigXj, pub⟩ :=
            (Except.ok.inj hok).symm
          rw [hchild] at hfind hget
          simp only at hfind hget
          rw [hfind0] at hfind
          have hmy : my = my0 := by
            have := Option.some.inj hfind
            omega
          rw [hmy, hget0] at hget
          exact absurd hget (by simp)
        | some pt0 =>
          simp only [hget0] at hok
          by_cases hinv : xi • G = pt0
          · rw [if_pos hinv] at hok
            have hchild : child = ⟨parent.Ks, parent.ShareID, xi, bigXj, pub⟩ :=
              (Except.ok.inj hok).symm
            rw [hchild] at hfind hget ⊢
            simp only at hfind hget ⊢
            rw [hfind0] at hfind
            have hmy : my = my0 := by
              have := Option.some.inj hfind
              omega
            rw [hmy, hget0] at hget
            rw [← Option.some.inj hget]
            exact hinv
          · rw [if_neg hinv] at hok
            exact absurd hok (by simp)
  · intro P _ prims G parent cc path indices xi pub bigXj cc2 hparse hnil hsteps
    have hp : path ≠ "" := by
      rintro rfl
      rw [parseDerivationPath_empty] at hparse
      exact hnil (Except.ok.inj hparse).symm
    simp [DeriveEdDSALocalPartySaveData, hp, hparse, hnil, hsteps]

/-- Witness for C4: the ECDSA check applied at a concrete invariant-
preserving derivation over `ℤ`, and the EdDSA no-check conclusion at a
concrete loop run. -/
theorem C4_witness :
    ((6 : ℕ) • (1 : ℤ) = 6) ∧
    DeriveEdDSALocalPartySaveData exPrims (1 : ℤ) exParentEd (List.replicate 32 0)
      "0" = .ok { Ks := [1], ShareID := 1, Xi := 6, BigXj := [6], EDDSAPub := 6 } :=
  ⟨C4_post_derivation_check.1 ℤ exPrims 1 exParentECDSA
      { Ks := [1], ShareID := 1, Xi := 6, BigXj := [6], ECDSAPub := 6 }
      (List.replicate 32 0) "0" [0] 0 6 rfl (by decide) rfl rfl rfl,
   C4_post_derivation_check.2 ℤ exPrims 1 exParentEd (List.replicate 32 0) "0" [0]
      6 6 [6] (List.replicate 32 7) rfl (by decide) rfl⟩

/-! ## Claim C7 -/

/-- Unfolding of `validKeyset` on a token cons. -/
theorem validKeyset_cons (prims : GuardianPrims) (allowed : List String)
    (msg : List ℕ) (t : AuthToken) (rest : List AuthToken) :
    validKeyset prims allowed msg (t :: rest) =
      if asciiLower t.publicKey ∈ allowed ∧
          dispatchVerify prims (asciiLower t.publicKey) msg t.signature then
        insert (asciiLower t.publicKey) (validKeyset prims allowed msg rest)
      else validKeyset prims allowed msg rest := by
  by_cases h : asciiLower t.publicKey ∈ allowed ∧
      dispatchVerify prims (asciiLower t.publicKey) msg t.signature
  · simp [validKeyset, List.filter_cons, h.1, h.2]
  · rw [if_neg h]
    rcases Decidable.not_and_iff_or_not.mp h with h1 | h1
    · simp [validKeyset, List.filter_cons, h1]
    · simp [validKeyset, List.filter_cons, h1]

/-- The guardian loop counts exactly the distinct allowed keys carrying a
valid signature that are not yet visited. -/
theorem guardianLoop_card (prims : GuardianPrims) (allowed : List String)
    (msg : List ℕ) (tokens : List AuthToken) :
    ∀ (visited : List String) (count : ℕ),
      guardianLoop prims allowed msg tokens visited count =
        count + (validKeyset prims allowed msg tokens \ visited.toFinset).card := by
  induction tokens with
  | nil => intro visited count; simp [guardianLoop, validKeyset]
  | cons t rest ih =>
    intro visited count
    rw [validKeyset_cons]
    by_cases h1 : asciiLower t.publicKey ∈ allowed
    · by_cases h2 : asciiLower t.publicKey ∈ visited
      · rw [guardianLoop, if_neg (by simp [h1]), if_pos h2, ih]
        by_cases h3 : dispatchVerify prims (asciiLower t.publicKey) msg t.signature
        · rw [if_pos ⟨h1, h3⟩, Finset.insert_sdiff_of_mem _ (by simpa using h2)]
        · rw [if_neg (by simp [h3])]
      · by_cases h3 : dispatchVerify prims (asciiLower t.publicKey) msg t.signature
        · rw [guardianLoop, if_neg (by simp [h1]), if_neg h2, if_pos h3, ih,
            if_pos ⟨h1, h3⟩]
          have hins : insert (asciiLower t.publicKey)
              (validKeyset prims allowed msg rest) \ visited.toFinset =
              insert (asciiLower t.publicKey) (validKeyset prims allowed msg rest \
                (asciiLower t.publicKey :: visited).toFinset) := by
            ext a
            by_cases ha : a = asciiLower t.publicKey
            · subst ha
              simp [h2]
            · simp [ha]
          rw [hins, Finset.card_insert_of_not_mem (by simp)]
          omega
        · rw [guardianLoop, if_neg (by simp [h1]), if_neg h2, if_neg (by simp [h3]),
            ih, if_neg (by simp [h3])]
    · rw [guardianLoop, if_pos (by simp [h1]), ih, if_neg (by simp [h1])]

theorem guardianLoop_count_eq_card (prims : GuardianPrims) (allowed : List String)
    (msg : List ℕ) (tokens : List AuthToken) :
    guardianLoop prims allowed msg tokens [] 0 =
      (validKeyset prims allowed msg tokens).card := by
  rw [guardianLoop_card]
  simp

/-- C7: the guardian gate admits a request exactly when the number of
distinct allowed credentials (identified by their lower-cased public key
hex) carrying a valid signature over the resolved message is at least `m`,
where `m` defaults to 1 when no signing policy is stored; repeated
assertions by the same credential count once and assertions from keys
outside the allow-list count nothing. -/
theorem C7_guardian_policy_decision :
    ∀ (prims : GuardianPrims) (policy : Option SigningPolicy) (keys : List String)
      (req : StartSignRequest) (msg : List ℕ),
      guardianMessage req = some msg →
      (checkGuardianPolicy prims policy (some keys) req = .ok () ↔
        policy.elim 1 SigningPolicy.minSignatures ≤
          (validKeyset prims (keys.map asciiLower) msg req.authTokens).card) := by
  intro prims policy keys req msg hmsg
  simp only [checkGuardianPolicy, hmsg, guardianLoop_count_eq_card]
  cases policy with
  | none =>
    simp only [Option.elim]
    constructor
    · intro h
      by_contra hlt
      rw [if_pos (Nat.lt_of_not_le hlt)] at h
      exact absurd h (by simp)
    · intro h
      rw [if_neg (Nat.not_lt_of_le h)]
  | some p =>
    simp only [Option.elim]
    constructor
    · intro h
      by_contra hlt
      rw [if_pos (Nat.lt_of_not_le hlt)] at h
      exact absurd h (by simp)
    · intro h
      rw [if_neg (Nat.not_lt_of_le h)]

/-- Verifier stubs that accept every signature (used to exercise the
counting logic at concrete inputs). -/
def exGuardianPrims : GuardianPrims :=
  { verifyEd25519 := fun _ _ _ => true, verifySecp256k1 := fun _ _ _ => true }

/-- A request carrying one assertion whose key (upper-case hex) is in the
allow-list used by the witness. -/
def exOneTokenReq : StartSignRequest :=
  { keyId := "w1", message := [], messageHex := "",
    authTokens := [{ publicKey := "AA", signature := [1] }] }

/-- Witness for C7 at a concrete 1-of-1 request. -/
theorem C7_witness :
    checkGuardianPolicy exGuardianPrims (some { minSignatures := 1 }) (some ["aa"])
      exOneTokenReq = .ok () ↔
    1 ≤ (validKeyset exGuardianPrims ["aa"] [] exOneTokenReq.authTokens).card :=
  C7_guardian_policy_decision exGuardianPrims (some { minSignatures := 1 }) ["aa"]
    exOneTokenReq [] rfl

/-! ## Claim C1 -/

/-- A sign-transaction request with no WebAuthn assertion (and hence no
valid assertions at all). -/
def exSignInput : SignHandlerInput :=
  { hasAssertion := false, messageHex := some "00ff", keyFound := true,
    sessionCreated := true, discoveredNodes := ["signer-1"],
    mobileNodeID := "mobile-p1" }

/-- The corresponding engine-side request carrying zero auth tokens. -/
def exNoTokenReq : StartSignRequest :=
  { keyId := "w1", message := [0], messageHex := "", authTokens := [] }

/-- C1 (code bug evaluation): on a sign request carrying zero assertions,
the sign handler proceeds and sends `StartSign` to the signer node — the
protocol engine is invoked and no authorisation-denied error is returned —
although the guardian policy function, evaluated on the same request under
the default `m = 1` policy, denies it with an insufficient-signatures
error.  The guardian check is never called on the sign path. -/
theorem C1_gate_not_wired_on_sign_path :
    postSignTransactionHandler exSignInput = .ok [SignAction.startSign "signer-1"] ∧
    exSignInput.hasAssertion = false ∧
    checkGuardianPolicy exGuardianPrims (some { minSignatures := 1 }) (some ["aa"])
      exNoTokenReq = .error .insufficientSignatures :=
  ⟨rfl, rfl, rfl⟩

/-! ## Claim C2 -/

/-- Verifier stubs that report a failed verification for every input. -/
def exVerifyFalsePrims : VerifyPrims :=
  { verifyECDSASignature := fun _ _ _ => .ok false,
    ed25519Verify := fun _ _ _ => false }

/-- A 70-byte signature in hex (140 characters of `0`). -/
def exSigHex70 : String := String.mk (List.replicate 140 '0')

/-- C2 counterexample: a sign result whose standard-library verification
returns `false` is still returned as a success carrying the signature —
refuting the claim that a failing verification is never returned as a
success. -/
theorem C2_counterexample :
    verifySignatureStandard exVerifyFalsePrims (List.replicate 70 0) [] [0] =
      .ok false ∧
    thresholdSignFinalize exVerifyFalsePrims "00" exSigHex70 [] =
      .ok { signature := exSigHex70 } :=
  ⟨rfl, rfl⟩

/-- C2 (amended): `ThresholdSign` runs the standard-library verifier over
every produced signature, but its outcome does not gate the result: any
verification failure or error is overridden to `valid = true` and the
signature is returned as a success; moreover the secp256k1 Schnorr
verifier is a stub accepting everything. -/
theorem C2_verification_not_enforced :
    (∀ (prims : VerifyPrims) (pubHex sigHex : String) (msg : List ℕ)
       (resp : SignResponse),
       thresholdSignFinalize prims pubHex sigHex msg = .ok resp →
       resp.signature = sigHex) ∧
    (∀ verdict : Except String Bool, thresholdSignValidFlag verdict = true) ∧
    (∀ sig msg pub : List ℕ, verifySchnorrSignature sig msg pub = .ok true) := by
  refine ⟨?_, ?_, fun _ _ _ => rfl⟩
  · intro prims pubHex sigHex msg resp h
    simp only [thresholdSignFinalize] at h
    cases hpk : hexDecode pubHex with
    | none => simp [hpk] at h
    | some pub =>
      simp only [hpk] at h
      cases hsig : hexDecode sigHex with
      | none => simp [hsig] at h
      | some sig =>
        simp only [hsig] at h
        rw [← Except.ok.inj h]
  · intro verdict
    cases verdict with
    | error e => rfl
    | ok v => cases v <;> rfl

/-- Witness for C2 at a concrete finalize run and a false verdict. -/
theorem C2_witness :
    ({ signature := exSigHex70 } : SignResponse).signature = exSigHex70 ∧
    thresholdSignValidFlag (.ok false) = true :=
  ⟨C2_verification_not_enforced.1 exVerifyFalsePrims "00" exSigHex70 []
      { signature := exSigHex70 } rfl,
   C2_verification_not_enforced.2.1 (.ok false)⟩

/-! ## Claim C8 -/

/-- Parsing and verification stubs for the passkey counterexample: the
client data parses with type `webauthn.create`, the challenge matches, the
UP flag is set, and the signature verifies. -/
def exPasskeyPrims : PasskeyPrims Unit :=
  { parsePublicKey := fun _ => .ok (),
    parseClientData := fun _ => .ok { type := "webauthn.create", challenge := "abc" },
    parseAuthData := fun _ => .ok { userPresent := true },
    sha256 := fun _ => [],
    verifySignature := fun _ _ _ => .ok true }

/-- C8 counterexample: an assertion whose client-data `type` is
`webauthn.create` (not `webauthn.get`) passes `VerifyPasskeySignature` —
the source never inspects the type field, refuting the claim that
verification succeeds only when the type matches the operation. -/
theorem C8_counterexample :
    VerifyPasskeySignature exPasskeyPrims "aa" [] [] [] "abc" = .ok () ∧
    exPasskeyPrims.parseClientData [] =
      .ok { type := "webauthn.create", challenge := "abc" } ∧
    ("webauthn.create" : String) ≠ "webauthn.get" := by
  refine ⟨rfl, rfl, by decide⟩

/-- C8 (amended): `VerifyPasskeySignature` succeeds exactly when the
public key hex decodes and parses, the client data parses, its challenge
equals the expected one (exactly or up to trailing `=` padding), the
authenticator data parses with the User Present flag set, and the
signature verifies over `authData ‖ SHA256(clientDataJSON)`; the
client-data `type` field is never checked. -/
theorem C8_passkey_verification_conditions :
    ∀ (K : Type) (prims : PasskeyPrims K) (pubHex : String) (sig ad cdj : List ℕ)
      (expected : String),
      VerifyPasskeySignature prims pubHex sig ad cdj expected = .ok () ↔
      ∃ (pkBytes : List ℕ) (pk : K) (cd : CollectedClientData)
        (ada : AuthenticatorData),
        hexDecode pubHex = some pkBytes ∧
        prims.parsePublicKey pkBytes = .ok pk ∧
        prims.parseClientData cdj = .ok cd ∧
        (cd.challenge = expected ∨
          trimRightEq cd.challenge = trimRightEq expected) ∧
        prims.parseAuthData ad = .ok ada ∧
        ada.userPresent = true ∧
        prims.verifySignature pk (ad ++ prims.sha256 cdj) sig = .ok true := by
  intro K prims pubHex sig ad cdj expected
  constructor
  · intro h
    simp only [VerifyPasskeySignature] at h
    cases hpk : hexDecode pubHex with
    | none => simp [hpk] at h
    | some pkBytes =>
      simp only [hpk] at h
      cases hparse : prims.parsePublicKey pkBytes with
      | error e => simp [hparse] at h
      | ok pk =>
        simp only [hparse] at h
        cases hcd : prims.parseClientData cdj with
        | error e => simp [hcd] at h
        | ok cd =>
          simp only [hcd] at h
          by_cases hch : cd.challenge ≠ expected ∧
              trimRightEq cd.challenge ≠ trimRightEq expected
          · rw [if_pos hch] at h
            exact absurd h (by simp)
          · rw [if_neg hch] at h
            cases had : prims.parseAuthData ad with
            | error e => simp [had] at h
            | ok ada =>
              simp only [had] at h
              by_cases hup : ada.userPresent
              · rw [if_neg (by simp [hup])] at h
                cases hv : prims.verifySignature pk (ad ++ prims.sha256 cdj) sig with
                | error e => simp [hv] at h
                | ok v =>
                  cases v with
                  | false => simp [hv] at h
                  | true =>
                    refine ⟨pkBytes, pk, cd, ada, rfl, hparse, rfl, ?_, rfl, hup, hv⟩
                    rcases Decidable.not_and_iff_or_not.mp hch with h1 | h1
                    · exact Or.inl (Decidable.not_not.mp h1)
                    · exact Or.inr (Decidable.not_not.mp h1)
              · rw [if_pos (by simp [hup])] at h
                exact absurd h (by simp)
  · rintro ⟨pkBytes, pk, cd, ada, hpk, hparse, hcd, hch, had, hup, hv⟩
    have hch2 : ¬(cd.challenge ≠ expected ∧
        trimRightEq cd.challenge ≠ trimRightEq expected) := by
      rcases hch with h | h
      · exact fun hc => hc.1 h
      · exact fun hc => hc.2 h
    simp [VerifyPasskeySignature, hpk, hparse, hcd, if_neg hch2, had, hup, hv]

/-- Witness for C8: the success conditions extracted at a concrete
passing assertion. -/
theorem C8_witness :
    ∃ (pkBytes : List ℕ) (pk : Unit) (cd : CollectedClientData)
      (ada : AuthenticatorData),
      hexDecode "aa" = some pkBytes ∧
      exPasskeyPrims.parsePublicKey pkBytes = .ok pk ∧
      exPasskeyPrims.parseClientData [] = .ok cd ∧
      (cd.challenge = "abc" ∨ trimRightEq cd.challenge = trimRightEq "abc") ∧
      exPasskeyPrims.parseAuthData [] = .ok ada ∧
      ada.userPresent = true ∧
      exPasskeyPrims.verifySignature pk ([] ++ exPasskeyPrims.sha256 []) [] =
        .ok true :=
  (C8_passkey_verification_conditions Unit exPasskeyPrims "aa" [] [] [] "abc").mp rfl

/-! ## Claim C9 -/

/-- Four active signing nodes. -/
def exFourNodes : List NodeInfo :=
  [{ nodeID := "n1", purpose := "signing" }, { nodeID := "n2", purpose := "signing" },
   { nodeID := "n3", purpose := "signing" }, { nodeID := "n4", purpose := "signing" }]

/-- C9 counterexample: with required signer count (threshold) 2 and total
participants 4, the fallback participant selection engages all four
discovered signing nodes — not exactly `t+1 = 2` share holders as the
claim requires. -/
theorem C9_counterexample :
    selectParticipants 2 4 "" (.ok exFourNodes) = .ok ["n1", "n2", "n3", "n4"] ∧
    (["n1", "n2", "n3", "n4"] : List String).length ≠ 2 :=
  ⟨rfl, by decide⟩

/-- C9 (amended): wallet creation hardcodes required signer count 2 and
total participants 2, so created root keys satisfy `1 ≤ t < n` for the
polynomial degree `t = threshold - 1`; participant selection engages at
least `threshold` signers (exactly `threshold = t+1` in the 2-of-2 and
2-of-3 modes, but up to `totalNodes` in the fallback mode), and a request
that cannot gather `threshold` signing nodes is rejected before signing
begins. -/
theorem C9_threshold_discipline :
    (createWalletKeyRequest.threshold = 2 ∧ createWalletKeyRequest.totalNodes = 2 ∧
      1 ≤ createWalletKeyRequest.threshold - 1 ∧
      createWalletKeyRequest.threshold - 1 < createWalletKeyRequest.totalNodes) ∧
    (∀ (threshold totalNodes : ℕ) (mobile : String)
       (disc : Except String (List NodeInfo)) (l : List String),
       selectParticipants threshold totalNodes mobile disc = .ok l →
       threshold ≤ l.length) ∧
    (∀ (mobile : String) (disc : Except String (List NodeInfo)) (l : List String),
       selectParticipants 2 2 mobile disc = .ok l → l.length = 2) ∧
    (∀ (mobile : String) (disc : Except String (List NodeInfo)) (l : List String),
       selectParticipants 2 3 mobile disc = .ok l → l.length = 2) ∧
    (∀ (threshold totalNodes : ℕ) (mobile : String) (ps : List NodeInfo),
       ¬(threshold = 2 ∧ totalNodes = 2) → ¬(threshold = 2 ∧ totalNodes = 3) →
       (ps.filter (fun p => p.purpose = "signing" ∨ p.purpose = "")).length <
         threshold →
       selectParticipants threshold totalNodes mobile (.ok ps) =
         .error "insufficient active signing nodes") := by
  refine ⟨⟨rfl, rfl, by decide, by decide⟩, ?_, ?_, ?_, ?_⟩
  · intro threshold totalNodes mobile disc l h
    simp only [selectParticipants] at h
    by_cases h1 : threshold = 2 ∧ totalNodes = 2
    · rw [if_pos h1] at h
      by_cases hm : mobile = ""
      · simp [hm] at h
      · rw [if_neg hm] at h
        rw [← Except.ok.inj h, h1.1]
        simp
    · rw [if_neg h1] at h
      by_cases h2 : threshold = 2 ∧ totalNodes = 3
      · rw [if_pos h2] at h
        rw [← Except.ok.inj h, h2.1]
        simp
      · rw [if_neg h2] at h
        cases disc with
        | error e => simp at h
        | ok ps =>
          simp only at h
          by_cases h3 : (ps.filter
              (fun p => p.purpose = "signing" ∨ p.purpose = "")).length < threshold
          · rw [if_pos h3] at h
            exact absurd h (by simp)
          · rw [if_neg h3] at h
            rw [← Except.ok.inj h]
            simp only [List.length_map, List.length_take, Nat.min_def]
            split_ifs <;> omega
  · intro mobile disc l h
    by_cases hm : mobile = ""
    · simp [selectParticipants, hm] at h
    · simp [selectParticipants, hm] at h
      subst h
      rfl
  · intro mobile disc l h
    simp [selectParticipants] at h
    subst h
    rfl
  · intro threshold totalNodes mobile ps h1 h2 h3
    simp only [selectParticipants, if_neg h1, if_neg h2]
    rw [if_pos h3]

/-- Witness for C9 at the fixed 2-of-2 and 2-of-3 configurations and a
starving fallback configuration. -/
theorem C9_witness :
    (2 : ℕ) ≤ (["m1", "server-signer-p2"] : List String).length ∧
    (["server-proxy-1", "server-proxy-2"] : List String).length = 2 ∧
    selectParticipants 3 4 "" (.ok exFourNodes.tail.tail) =
      .error "insufficient active signing nodes" :=
  ⟨by
    have := C9_threshold_discipline.2.1 2 2 "m1" (.error "none")
      ["m1", "server-signer-p2"] rfl
    exact this,
   C9_threshold_discipline.2.2.2.1 "m1" (.error "none")
      ["server-proxy-1", "server-proxy-2"] rfl,
   C9_threshold_discipline.2.2.2.2 3 4 "" exFourNodes.tail.tail (by decide) (by decide)
      (by decide)⟩

end MpcService
